/-
Verification of the slide-overflow detection pipeline
(`render_slides.py` and `slides_test.py`).

The numerical core of the two scripts is embedded shallowly:
Python integers become `Int`/`Nat`, Python floats are modelled as exact
rationals (`ℚ`), Python's `round` (banker's rounding, half to even) is
`pyRound`, Python's `int()` truncation is `pyInt`, and code that raises
exceptions is modelled with `Except String`.
-/
import Mathlib

namespace Slides

/-- Python's `round`: round half to even (banker's rounding). -/
def pyRound (q : ℚ) : ℤ :=
  let f := ⌊q⌋
  let r := q - f
  if r < 1/2 then f
  else if 1/2 < r then f + 1
  else if f % 2 = 0 then f else f + 1

/-- Python's `int()` applied to a float: truncation toward zero. -/
def pyInt (q : ℚ) : ℤ :=
  if 0 ≤ q then ⌊q⌋ else ⌈q⌉

/-- The constant `EMU_PER_INCH` from both scripts. -/
def EMU_PER_INCH : ℤ := 914400

/-- The function `calc_tol` from `slides_test.py` (lines 28-34): per-channel colour
tolerance for a given DPI. -/
def calc_tol (dpi : ℤ) : ℤ :=
  if 300 ≤ dpi then 0
  else min (max (pyRound (((300 : ℚ) - (dpi : ℚ)) / 25)) 1) 10

/-- The function `calc_dpi_via_ooxml` from `render_slides.py` (lines 19-34), with the
XML reading already performed: `cx`/`cy` are the slide size attributes in
EMUs (`0` when the attribute is absent), `max_w_px`/`max_h_px` the pixel
budget.  The `RuntimeError` on a non-positive size is an `Except.error`. -/
def calc_dpi_via_ooxml (cx cy max_w_px max_h_px : ℤ) : Except String ℤ :=
  if cx ≤ 0 ∨ cy ≤ 0 then
    Except.error "Invalid slide size values in presentation.xml"
  else
    let width_in : ℚ := (cx : ℚ) / (EMU_PER_INCH : ℚ)
    let height_in : ℚ := (cy : ℚ) / (EMU_PER_INCH : ℚ)
    Except.ok (pyRound (min ((max_w_px : ℚ) / width_in) ((max_h_px : ℚ) / height_in)))

/-- The numerical tail of `calc_dpi_via_pdf` from `render_slides.py`
(lines 37-65), with the PDF conversion and page-size report parsing
already performed: `width_pts`/`height_pts` are the integers matched by
the regex from the `"<w> x <h> pts"` field. -/
def calc_dpi_via_pdf (width_pts height_pts max_w_px max_h_px : ℤ) : Except String ℤ :=
  let width_in : ℚ := (width_pts : ℚ) / 72
  let height_in : ℚ := (height_pts : ℚ) / 72
  if width_in ≤ 0 ∨ height_in ≤ 0 then
    Except.error "Invalid PDF page size values."
  else
    Except.ok (pyRound (min ((max_w_px : ℚ) / width_in) ((max_h_px : ℚ) / height_in)))

/-- The shared DPI formula as the spec states it, over physical sizes in
inches: `round(min(budgetW / widthInches, budgetH / heightInches))`. -/
def specResolveDPI (width_in height_in : ℚ) (max_w_px max_h_px : ℤ) : ℤ :=
  pyRound (min ((max_w_px : ℚ) / width_in) ((max_h_px : ℚ) / height_in))

lemma pyInt_eq_floor (q : ℚ) (h : 0 ≤ q) : pyInt q = ⌊q⌋ := if_pos h

lemma floor_fract_bounds (q : ℚ) : (0 : ℚ) ≤ q - ⌊q⌋ ∧ q - ⌊q⌋ < 1 :=
  ⟨sub_nonneg.mpr (Int.floor_le q),
   by have := Int.lt_floor_add_one q; linarith⟩

/-- Away from exact ties, Python's banker's rounding agrees with the
standard rounding function. -/
lemma pyRound_eq_round (q : ℚ) (h : q - ⌊q⌋ ≠ 1/2) : pyRound q = round q := by
  obtain ⟨h0, h1⟩ := floor_fract_bounds q
  rw [round_eq]
  unfold pyRound
  by_cases hlt : q - (⌊q⌋ : ℚ) < 1/2
  · rw [if_pos hlt]
    symm
    rw [Int.floor_eq_iff]
    exact ⟨by linarith, by linarith⟩
  · have hgt : 1/2 < q - (⌊q⌋ : ℚ) := lt_of_le_of_ne (not_lt.mp hlt) (Ne.symm h)
    rw [if_neg hlt, if_pos hgt]
    symm
    rw [Int.floor_eq_iff]
    constructor
    · push_cast
      linarith
    · push_cast
      linarith

/-- Python's rounding of a rational strictly above `1/2` is at least `1`. -/
lemma one_le_pyRound (q : ℚ) (h : 1/2 < q) : 1 ≤ pyRound q := by
  obtain ⟨h0, h1⟩ := floor_fract_bounds q
  have hf : 0 ≤ ⌊q⌋ := Int.floor_nonneg.mpr (by linarith)
  have hfq : (0 : ℚ) ≤ (⌊q⌋ : ℚ) := by exact_mod_cast hf
  unfold pyRound
  by_cases hlt : q - (⌊q⌋ : ℚ) < 1/2
  · rw [if_pos hlt]
    have : (0 : ℚ) < (⌊q⌋ : ℚ) := by linarith
    exact_mod_cast this
  · rw [if_neg hlt]
    by_cases hgt : 1/2 < q - (⌊q⌋ : ℚ)
    · rw [if_pos hgt]; omega
    · rw [if_neg hgt]
      have hhalf : q - (⌊q⌋ : ℚ) = 1/2 := le_antisymm (not_lt.mp hgt) (not_lt.mp hlt)
      have : (0 : ℚ) < (⌊q⌋ : ℚ) := by linarith
      have h1f : 1 ≤ ⌊q⌋ := by exact_mod_cast this
      split <;> omega

/-- A rational of the form `(d : ℚ) / 25` never has fractional part exactly `1/2`, so the
tolerance formula hits no rounding tie. -/
lemma no_tie_div_25 (d : ℤ) : (d : ℚ)/25 - ⌊(d : ℚ)/25⌋ ≠ 1/2 := by
  intro h
  set m := ⌊(d : ℚ)/25⌋ with hm
  have hq : (d : ℚ)/25 = (m : ℚ) + 1/2 := by linarith
  have h50 : (d : ℚ) * 2 = 50 * (m : ℚ) + 25 := by
    field_simp at hq
    linarith
  have hz : d * 2 = 50 * m + 25 := by exact_mod_cast h50
  omega

/-! ## Margin inspection (`slides_test.py`) -/

/-- An RGB pixel. -/
abbrev Pixel := ℕ × ℕ × ℕ

/-- The constant `PAD_RGB` from `slides_test.py` (line 20). -/
def PAD_RGB : Pixel := (200, 200, 200)

/-- The inspector's reference colour `pad_colour` (`slides_test.py`,
line 88). -/
def pad_colour : Pixel := PAD_RGB

/-- A raster frame: its dimensions and a pixel lookup (row, column). -/
structure Image where
  height : ℕ
  width : ℕ
  pix : ℕ → ℕ → Pixel

instance : Inhabited Image := ⟨⟨0, 0, fun _ _ => (0, 0, 0)⟩⟩

/-- Absolute per-channel difference (`np.abs(margin - pad_colour)`). -/
def chDiff (a b : ℕ) : ℕ := max a b - min a b

/-- A pixel matches the padding colour when every channel's absolute
difference is at most `tol` (`np.all(diff <= tol, axis=-1)`). -/
def pixMatches (tol : ℤ) (p : Pixel) : Prop :=
  (chDiff p.1 pad_colour.1 : ℤ) ≤ tol ∧
  (chDiff p.2.1 pad_colour.2.1 : ℤ) ≤ tol ∧
  (chDiff p.2.2 pad_colour.2.2 : ℤ) ≤ tol

instance (tol : ℤ) (p : Pixel) : Decidable (pixMatches tol p) := by
  unfold pixMatches
  infer_instance

/-- A rectangular pixel region: rows `[r0, r1)` by columns `[c0, c1)`. -/
structure Band where
  r0 : ℕ
  r1 : ℕ
  c0 : ℕ
  c1 : ℕ
deriving DecidableEq

/-- The number of pixels in a band (`matches.size`). -/
def Band.size (b : Band) : ℕ := (b.r1 - b.r0) * (b.c1 - b.c0)

/-- The cells of a band, as (row, column) offsets from its corner. -/
def Band.cells (b : Band) : Finset (ℕ × ℕ) :=
  Finset.range (b.r1 - b.r0) ×ˢ Finset.range (b.c1 - b.c0)

/-- The count `np.count_nonzero(matches)`: band pixels matching the pad colour. -/
def matchCount (img : Image) (tol : ℤ) (b : Band) : ℕ :=
  (b.cells.filter (fun ij => pixMatches tol (img.pix (b.r0 + ij.1) (b.c0 + ij.2)))).card

/-- Band pixels whose difference from the pad colour exceeds the
tolerance in at least one channel. -/
def mismatchCount (img : Image) (tol : ℤ) (b : Band) : ℕ :=
  (b.cells.filter (fun ij => ¬ pixMatches tol (img.pix (b.r0 + ij.1) (b.c0 + ij.2)))).card

/-- NumPy normalisation of a slice bound `k` on an axis of length `n`:
a negative bound counts from the end of the axis, and bounds are clamped
to `[0, n]`. -/
def sliceIdx (n : ℕ) (k : ℤ) : ℕ :=
  if 0 ≤ k then min k.toNat n else ((n : ℤ) + k).toNat

/-- The band width `pad_x = int(w * pad_ratio_w) - 1` (`slides_test.py`, lines 97-98). -/
def pad_x (n : ℕ) (ratio : ℚ) : ℤ := pyInt ((n : ℚ) * ratio) - 1

/-- The four margin bands of `inspect_images` (lines 95-103): the NumPy
slices `arr[:, :pad_x]`, `arr[:, w-pad_x:]`, `arr[:pad_y, :]` and
`arr[h-pad_y:, :]`, in that order (left, right, top, bottom). -/
def margins (h w : ℕ) (pad_ratio_w pad_ratio_h : ℚ) : Band × Band × Band × Band :=
  (⟨0, h, 0, sliceIdx w (pad_x w pad_ratio_w)⟩,
   ⟨0, h, sliceIdx w ((w : ℤ) - pad_x w pad_ratio_w), w⟩,
   ⟨0, sliceIdx h (pad_x h pad_ratio_h), 0, w⟩,
   ⟨sliceIdx h ((h : ℤ) - pad_x h pad_ratio_h), h, 0, w⟩)

/-- The DPI-dependent mismatch ceiling of `_is_clean` (lines 109-114). -/
def max_mismatch (dpi : ℤ) : ℚ :=
  if 300 ≤ dpi then 1/100 else if 200 ≤ dpi then 2/100 else 3/100

/-- The predicate `_is_clean` (lines 105-115).  The mismatch fraction is
`1.0 - count_nonzero(matches) / matches.size`; on a band with no pixels
the Python code raises `ZeroDivisionError`, modelled as an error. -/
def is_clean (img : Image) (dpi tol : ℤ) (b : Band) : Except String Bool :=
  if b.size = 0 then Except.error "ZeroDivisionError"
  else
    Except.ok (decide (1 - (matchCount img tol b : ℚ) / (b.size : ℚ) ≤ max_mismatch dpi))

/-- Python's short-circuiting `and` over fallible boolean computations:
a `False` on the left suppresses evaluation of the right operand. -/
def andThen (x : Except String Bool) (y : Unit → Except String Bool) : Except String Bool :=
  match x with
  | Except.error e => Except.error e
  | Except.ok false => Except.ok false
  | Except.ok true => y ()

/-- The per-frame body of the loop in `inspect_images` (lines 90-123):
`true` means the frame fails, i.e. some margin band is not clean. -/
def frameFails (img : Image) (pad_ratio_w pad_ratio_h : ℚ) (dpi : ℤ) : Except String Bool :=
  (andThen (is_clean img dpi (calc_tol dpi) (margins img.height img.width pad_ratio_w pad_ratio_h).1)
    (fun _ => andThen (is_clean img dpi (calc_tol dpi) (margins img.height img.width pad_ratio_w pad_ratio_h).2.1)
      (fun _ => andThen (is_clean img dpi (calc_tol dpi) (margins img.height img.width pad_ratio_w pad_ratio_h).2.2.1)
        (fun _ => is_clean img dpi (calc_tol dpi) (margins img.height img.width pad_ratio_w pad_ratio_h).2.2.2)))).map
    (fun c => !c)

/-- The enumeration loop of `inspect_images`, carrying the 1-based index. -/
def inspectFrom (rw rh : ℚ) (dpi : ℤ) : List Image → ℕ → Except String (List ℕ)
  | [], _ => Except.ok []
  | img :: rest, idx =>
    match frameFails img rw rh dpi with
    | Except.error e => Except.error e
    | Except.ok b =>
      (inspectFrom rw rh dpi rest (idx + 1)).map
        (fun tail => if b then idx :: tail else tail)

/-- The function `inspect_images` (lines 78-125): the 1-based indices of the frames
whose margins contain overflow. -/
def inspect_images (paths : List Image) (pad_ratio_w pad_ratio_h : ℚ)
    (dpi : ℤ) : Except String (List ℕ) :=
  inspectFrom pad_ratio_w pad_ratio_h dpi paths 1

/-! ### The margin inspection as the spec states it

The following definitions follow the wording of the spec, to be compared
with the embedded code above. -/

/-- Band extents as the spec states them: `padX = ⌊w*ratioW⌋ - 1`,
left columns `[0, padX)`, right columns `[w-padX, w)`, top rows
`[0, padY)`, bottom rows `[h-padY, h)`. -/
def specBands (h w : ℕ) (rw rh : ℚ) : Band × Band × Band × Band :=
  (⟨0, h, 0, (⌊(w : ℚ) * rw⌋ - 1).toNat⟩,
   ⟨0, h, w - (⌊(w : ℚ) * rw⌋ - 1).toNat, w⟩,
   ⟨0, (⌊(h : ℚ) * rh⌋ - 1).toNat, 0, w⟩,
   ⟨h - (⌊(h : ℚ) * rh⌋ - 1).toNat, h, 0, w⟩)

/-- The spec's mismatch fraction: the fraction of band pixels whose
per-channel absolute difference from the padding colour exceeds `tol`. -/
def specMismatchFraction (img : Image) (tol : ℤ) (b : Band) : ℚ :=
  (mismatchCount img tol b : ℚ) / (b.size : ℚ)

/-- The spec's cleanliness predicate for one band: the mismatch fraction
does not exceed the DPI-dependent ceiling. -/
def specBandClean (img : Image) (dpi : ℤ) (b : Band) : Prop :=
  specMismatchFraction img (calc_tol dpi) b ≤ max_mismatch dpi

instance (img : Image) (dpi : ℤ) (b : Band) : Decidable (specBandClean img dpi b) := by
  unfold specBandClean
  infer_instance

/-- The spec's per-frame overflow predicate: at least one of the four
margin bands is not clean. -/
def specFrameOverflow (img : Image) (rw rh : ℚ) (dpi : ℤ) : Prop :=
  ¬ (specBandClean img dpi (specBands img.height img.width rw rh).1 ∧
     specBandClean img dpi (specBands img.height img.width rw rh).2.1 ∧
     specBandClean img dpi (specBands img.height img.width rw rh).2.2.1 ∧
     specBandClean img dpi (specBands img.height img.width rw rh).2.2.2)

instance (img : Image) (rw rh : ℚ) (dpi : ℤ) : Decidable (specFrameOverflow img rw rh dpi) := by
  unfold specFrameOverflow
  infer_instance

/-- The spec's failure list, starting from 1-based index `s`. -/
def specIndicesFrom (rw rh : ℚ) (dpi : ℤ) : List Image → ℕ → List ℕ
  | [], _ => []
  | img :: rest, s =>
    if specFrameOverflow img rw rh dpi then s :: specIndicesFrom rw rh dpi rest (s + 1)
    else specIndicesFrom rw rh dpi rest (s + 1)

/-! ### Lemmas relating the embedded code to the spec's description -/

lemma pad_x_floor (n : ℕ) (r : ℚ) (h : 0 ≤ pad_x n r) :
    pad_x n r = ⌊(n : ℚ) * r⌋ - 1 := by
  unfold pad_x at h ⊢
  unfold pyInt at h ⊢
  by_cases h0 : 0 ≤ (n : ℚ) * r
  · rw [if_pos h0]
  · rw [if_neg h0] at h
    have hle : (n : ℚ) * r ≤ 0 := le_of_not_le h0
    have : ⌈(n : ℚ) * r⌉ ≤ 0 := Int.ceil_le.mpr (by exact_mod_cast hle)
    omega

lemma sliceIdx_eq (n : ℕ) (k : ℤ) (h0 : 0 ≤ k) (h1 : k ≤ (n : ℤ)) :
    sliceIdx n k = k.toNat := by
  unfold sliceIdx
  rw [if_pos h0]
  have : k.toNat ≤ n := by omega
  exact Nat.min_eq_left this

lemma margins_eq_specBands (h w : ℕ) (rw rh : ℚ)
    (hx0 : 0 ≤ pad_x w rw) (hx1 : pad_x w rw ≤ (w : ℤ))
    (hy0 : 0 ≤ pad_x h rh) (hy1 : pad_x h rh ≤ (h : ℤ)) :
    margins h w rw rh = specBands h w rw rh := by
  have hxf := pad_x_floor w rw hx0
  have hyf := pad_x_floor h rh hy0
  unfold margins specBands
  rw [← hxf, ← hyf]
  have e1 : sliceIdx w (pad_x w rw) = (pad_x w rw).toNat := sliceIdx_eq w _ hx0 hx1
  have e2 : sliceIdx w ((w : ℤ) - pad_x w rw) = ((w : ℤ) - pad_x w rw).toNat :=
    sliceIdx_eq w _ (by omega) (by omega)
  have e3 : sliceIdx h (pad_x h rh) = (pad_x h rh).toNat := sliceIdx_eq h _ hy0 hy1
  have e4 : sliceIdx h ((h : ℤ) - pad_x h rh) = ((h : ℤ) - pad_x h rh).toNat :=
    sliceIdx_eq h _ (by omega) (by omega)
  rw [e1, e2, e3, e4]
  have g2 : ((w : ℤ) - pad_x w rw).toNat = w - (pad_x w rw).toNat := by omega
  have g4 : ((h : ℤ) - pad_x h rh).toNat = h - (pad_x h rh).toNat := by omega
  rw [g2, g4]

lemma Band.card_cells (b : Band) : b.cells.card = b.size := by
  unfold Band.cells Band.size
  rw [Finset.card_product]
  simp

lemma matchCount_add_mismatchCount (img : Image) (tol : ℤ) (b : Band) :
    matchCount img tol b + mismatchCount img tol b = b.size := by
  unfold matchCount mismatchCount
  rw [Finset.filter_card_add_filter_neg_card_eq_card]
  exact b.card_cells

lemma is_clean_eq (img : Image) (dpi tol : ℤ) (b : Band) (hb : b.size ≠ 0) :
    is_clean img dpi tol b =
      Except.ok (decide (specMismatchFraction img tol b ≤ max_mismatch dpi)) := by
  unfold is_clean
  rw [if_neg hb]
  congr 1
  rw [decide_eq_decide]
  have hsum : (matchCount img tol b : ℚ) + (mismatchCount img tol b : ℚ) = (b.size : ℚ) := by
    exact_mod_cast matchCount_add_mismatchCount img tol b
  have hs : (b.size : ℚ) ≠ 0 := by exact_mod_cast hb
  have hfrac : 1 - (matchCount img tol b : ℚ) / (b.size : ℚ) =
      specMismatchFraction img tol b := by
    unfold specMismatchFraction
    field_simp
    linarith
  rw [hfrac]

lemma andThen_chain (a b c d : Bool) :
    (andThen (Except.ok a) (fun _ => andThen (Except.ok b)
      (fun _ => andThen (Except.ok c) (fun _ => Except.ok d)))).map (fun x => !x) =
    Except.ok (!(a && b && c && d)) := by
  cases a <;> cases b <;> cases c <;> cases d <;> rfl

lemma frameFails_eq (img : Image) (rw rh : ℚ) (dpi : ℤ)
    (hx0 : 1 ≤ pad_x img.width rw) (hx1 : pad_x img.width rw ≤ (img.width : ℤ))
    (hy0 : 1 ≤ pad_x img.height rh) (hy1 : pad_x img.height rh ≤ (img.height : ℤ)) :
    frameFails img rw rh dpi = Except.ok (decide (specFrameOverflow img rw rh dpi)) := by
  have hm := margins_eq_specBands img.height img.width rw rh
    (by omega) hx1 (by omega) hy1
  have hw1 : 1 ≤ img.width := by omega
  have hh1 : 1 ≤ img.height := by omega
  have s1 : (specBands img.height img.width rw rh).1.size ≠ 0 := by
    unfold specBands Band.size
    simp only
    have := pad_x_floor img.width rw (by omega)
    intro hcontra
    rcases Nat.mul_eq_zero.mp hcontra with hz | hz <;> omega
  have s2 : (specBands img.height img.width rw rh).2.1.size ≠ 0 := by
    unfold specBands Band.size
    simp only
    have := pad_x_floor img.width rw (by omega)
    intro hcontra
    rcases Nat.mul_eq_zero.mp hcontra with hz | hz <;> omega
  have s3 : (specBands img.height img.width rw rh).2.2.1.size ≠ 0 := by
    unfold specBands Band.size
    simp only
    have := pad_x_floor img.height rh (by omega)
    intro hcontra
    rcases Nat.mul_eq_zero.mp hcontra with hz | hz <;> omega
  have s4 : (specBands img.height img.width rw rh).2.2.2.size ≠ 0 := by
    unfold specBands Band.size
    simp only
    have := pad_x_floor img.height rh (by omega)
    intro hcontra
    rcases Nat.mul_eq_zero.mp hcontra with hz | hz <;> omega
  unfold frameFails
  rw [hm]
  simp only [is_clean_eq img dpi (calc_tol dpi) _ s1, is_clean_eq img dpi (calc_tol dpi) _ s2,
    is_clean_eq img dpi (calc_tol dpi) _ s3, is_clean_eq img dpi (calc_tol dpi) _ s4]
  rw [andThen_chain]
  congr 1
  unfold specFrameOverflow specBandClean
  simp only [decide_not, Bool.decide_and]
  rw [Bool.and_assoc, Bool.and_assoc]

lemma inspectFrom_eq (rw rh : ℚ) (dpi : ℤ) :
    ∀ (paths : List Image) (s : ℕ),
      (∀ img ∈ paths, 1 ≤ pad_x img.width rw ∧ pad_x img.width rw ≤ (img.width : ℤ) ∧
        1 ≤ pad_x img.height rh ∧ pad_x img.height rh ≤ (img.height : ℤ)) →
      inspectFrom rw rh dpi paths s = Except.ok (specIndicesFrom rw rh dpi paths s)
  | [], _, _ => rfl
  | img :: rest, s, hgood => by
    have himg := hgood img (List.mem_cons_self img rest)
    have hrest := inspectFrom_eq rw rh dpi rest (s + 1)
      (fun i hi => hgood i (List.mem_cons_of_mem img hi))
    unfold inspectFrom
    rw [frameFails_eq img rw rh dpi himg.1 himg.2.1 himg.2.2.1 himg.2.2.2, hrest]
    by_cases hp : specFrameOverflow img rw rh dpi
    · simp [specIndicesFrom, hp, Except.map]
    · simp [specIndicesFrom, hp, Except.map]

lemma mem_specIndicesFrom (rw rh : ℚ) (dpi : ℤ) :
    ∀ (paths : List Image) (s k : ℕ),
      (k ∈ specIndicesFrom rw rh dpi paths s ↔
        ∃ i, i < paths.length ∧ k = s + i ∧
          specFrameOverflow (paths.getD i default) rw rh dpi)
  | [], s, k => by simp [specIndicesFrom]
  | img :: rest, s, k => by
    unfold specIndicesFrom
    have ih := mem_specIndicesFrom rw rh dpi rest (s + 1) k
    by_cases hp : specFrameOverflow img rw rh dpi
    · rw [if_pos hp]
      simp only [List.mem_cons]
      rw [ih]
      constructor
      · rintro (rfl | ⟨i, hi, rfl, hov⟩)
        · exact ⟨0, by simp, by omega, by simpa using hp⟩
        · exact ⟨i + 1, by simpa using hi, by omega, by simpa using hov⟩
      · rintro ⟨i, hi, rfl, hov⟩
        cases i with
        | zero => left; omega
        | succ j =>
          right
          refine ⟨j, ?_, by omega, by simpa using hov⟩
          simpa using hi
    · rw [if_neg hp]
      rw [ih]
      constructor
      · rintro ⟨i, hi, rfl, hov⟩
        exact ⟨i + 1, by simpa using hi, by omega, by simpa using hov⟩
      · rintro ⟨i, hi, rfl, hov⟩
        cases i with
        | zero => exact absurd (by simpa using hov) hp
        | succ j =>
          refine ⟨j, ?_, by omega, by simpa using hov⟩
          simpa using hi

/-- Membership of a pixel in a band's rectangle. -/
def Band.contains (b : Band) (i j : ℕ) : Prop :=
  b.r0 ≤ i ∧ i < b.r1 ∧ b.c0 ≤ j ∧ j < b.c1

/-- A uniformly grey 4×4 test frame. -/
def greyFrame : Image := ⟨4, 4, fun _ _ => (200, 200, 200)⟩

/-- C3 (amended): when the derived band widths `pad_x` are nonnegative
and no larger than the frame dimensions, `inspect_images` inspects
exactly the four bands the spec describes — left `[0, padX)`, right
`[w-padX, w)`, top `[0, padY)`, bottom `[h-padY, h)` with
`padX = ⌊w*ratioW⌋ - 1` — and corner pixels of the horizontal bands
lying in the outer `padX` columns also belong to the corresponding
vertical band. -/
theorem margins_match_spec (h w : ℕ) (rw rh : ℚ)
    (hx0 : 0 ≤ pad_x w rw) (hx1 : pad_x w rw ≤ (w : ℤ))
    (hy0 : 0 ≤ pad_x h rh) (hy1 : pad_x h rh ≤ (h : ℤ)) :
    margins h w rw rh = specBands h w rw rh ∧
    pad_x w rw = ⌊(w : ℚ) * rw⌋ - 1 ∧ pad_x h rh = ⌊(h : ℚ) * rh⌋ - 1 ∧
    (∀ i j, (margins h w rw rh).2.2.1.contains i j ∨ (margins h w rw rh).2.2.2.contains i j →
      (j < (⌊(w : ℚ) * rw⌋ - 1).toNat → (margins h w rw rh).1.contains i j) ∧
      (w - (⌊(w : ℚ) * rw⌋ - 1).toNat ≤ j → (margins h w rw rh).2.1.contains i j)) := by
  have hme := margins_eq_specBands h w rw rh hx0 hx1 hy0 hy1
  have hxf := pad_x_floor w rw hx0
  have hyf := pad_x_floor h rh hy0
  refine ⟨hme, hxf, hyf, ?_⟩
  intro i j hij
  rw [hme] at hij ⊢
  simp only [specBands, Band.contains] at hij ⊢
  rcases hij with hij | hij <;>
    exact ⟨fun hj => ⟨by omega, by omega, by omega, by omega⟩,
           fun hj => ⟨by omega, by omega, by omega, by omega⟩⟩

/-- Witness for C3 at `h = w = 4`, ratios `1/2`. -/
theorem margins_match_spec_witness :
    margins 4 4 (1/2) (1/2) = specBands 4 4 (1/2) (1/2) :=
  (margins_match_spec 4 4 (1/2) (1/2) (by norm_num [pad_x, pyInt])
    (by norm_num [pad_x, pyInt]) (by norm_num [pad_x, pyInt])
    (by norm_num [pad_x, pyInt])).1

/-- Counterexample to C3 as stated: at ratio `1/10` on a 4×4 frame the
derived `pad_x` is `-1`, and NumPy's negative indexing makes the code
inspect all but the last column rather than the empty band `[0, padX)`
the claim describes. -/
theorem margins_cex :
    margins 4 4 (1/10) (1/10) ≠ specBands 4 4 (1/10) (1/10) := by
  intro hcontra
  have hc := congrArg (fun t : Band × Band × Band × Band => t.1.c1) hcontra
  simp only [margins, specBands] at hc
  norm_num [pad_x, pyInt, sliceIdx] at hc
  omega

/-- C1 (amended): for every frame list, ratio pair and positive DPI such
that every frame's derived band widths satisfy `1 ≤ padX ≤ width` and
`1 ≤ padY ≤ height` (all four bands nonempty), `inspect_images` returns
the failure list containing the 1-based index of a frame exactly when
one of its four margin bands has a fraction of pixels deviating from the
padding colour by more than `tol(dpi)` in some channel that exceeds the
DPI-dependent ceiling (`0.01` for DPI ≥ 300, `0.02` for DPI ≥ 200, else
`0.03`). -/
theorem inspect_images_correct (paths : List Image) (rw rh : ℚ) (dpi : ℤ)
    (_hdpi : 0 < dpi)
    (hgood : ∀ img ∈ paths, 1 ≤ pad_x img.width rw ∧ pad_x img.width rw ≤ (img.width : ℤ) ∧
      1 ≤ pad_x img.height rh ∧ pad_x img.height rh ≤ (img.height : ℤ)) :
    inspect_images paths rw rh dpi = Except.ok (specIndicesFrom rw rh dpi paths 1) ∧
    ∀ k, k ∈ specIndicesFrom rw rh dpi paths 1 ↔
      ∃ i, i < paths.length ∧ k = i + 1 ∧
        specFrameOverflow (paths.getD i default) rw rh dpi := by
  refine ⟨inspectFrom_eq rw rh dpi paths 1 hgood, ?_⟩
  intro k
  rw [mem_specIndicesFrom]
  constructor
  · rintro ⟨i, hi, rfl, hov⟩
    exact ⟨i, hi, by omega, hov⟩
  · rintro ⟨i, hi, rfl, hov⟩
    exact ⟨i, hi, by omega, hov⟩

/-- Witness for C1: a uniformly grey frame at ratio `1/2`, DPI 300. -/
theorem inspect_images_correct_witness :
    inspect_images [greyFrame] (1/2) (1/2) 300 =
      Except.ok (specIndicesFrom (1/2) (1/2) 300 [greyFrame] 1) :=
  (inspect_images_correct [greyFrame] (1/2) (1/2) 300 (by norm_num)
    (by
      intro img hmem
      rw [List.mem_singleton] at hmem
      subst hmem
      norm_num [greyFrame, pad_x, pyInt])).1

/-- Counterexample to C1 as stated: at padding ratio `1/4` on a 4×4
frame the derived band width is `0`, the margin bands are empty, and the
code raises `ZeroDivisionError` instead of producing a failure list. -/
theorem inspect_images_cex :
    inspect_images [greyFrame] (1/4) (1/4) 300 = Except.error "ZeroDivisionError" := by
  norm_num [inspect_images, inspectFrom, frameFails, margins, andThen, is_clean,
    Band.size, greyFrame, pad_x, pyInt, sliceIdx, Except.map]

/-- C2: the per-channel tolerance equals `0` for DPI ≥ 300 and otherwise
`clamp(round((300 - dpi)/25), 1, 10)`; in particular `tol(300) = 0`,
`tol(250) = 2`, `tol(150) = 6` and `tol(50) = 10`. -/
theorem calc_tol_spec :
    (∀ dpi : ℤ, calc_tol dpi =
      if 300 ≤ dpi then 0 else min (max (round (((300 : ℚ) - (dpi : ℚ)) / 25)) 1) 10) ∧
    calc_tol 300 = 0 ∧ calc_tol 250 = 2 ∧ calc_tol 150 = 6 ∧ calc_tol 50 = 10 := by
  constructor
  · intro dpi
    unfold calc_tol
    by_cases hd : 300 ≤ dpi
    · rw [if_pos hd, if_pos hd]
    · rw [if_neg hd, if_neg hd]
      congr 2
      have hcast : ((300 : ℚ) - (dpi : ℚ)) = ((300 - dpi : ℤ) : ℚ) := by push_cast; ring
      rw [hcast]
      exact pyRound_eq_round _ (no_tie_div_25 (300 - dpi))
  · refine ⟨?_, ?_, ?_, ?_⟩ <;> norm_num [calc_tol, pyRound]

/-- C4: for a deck with strictly positive page dimensions, the
native-metadata resolver returns
`round(min(budgetW / widthInches, budgetH / heightInches))`; for a
10in×5in page and a 1600×900 budget the result is 160. -/
theorem calc_dpi_via_ooxml_spec (cx cy mw mh : ℤ) (hcx : 0 < cx) (hcy : 0 < cy) :
    calc_dpi_via_ooxml cx cy mw mh =
      Except.ok (specResolveDPI ((cx : ℚ) / 914400) ((cy : ℚ) / 914400) mw mh) ∧
    specResolveDPI 10 5 1600 900 = 160 ∧
    calc_dpi_via_ooxml 9144000 4572000 1600 900 = Except.ok 160 := by
  refine ⟨?_, ?_, ?_⟩
  · unfold calc_dpi_via_ooxml specResolveDPI
    rw [if_neg (by omega : ¬(cx ≤ 0 ∨ cy ≤ 0))]
    norm_num [EMU_PER_INCH]
  · norm_num [specResolveDPI, pyRound, min_def]
  · norm_num [calc_dpi_via_ooxml, EMU_PER_INCH, pyRound, min_def]

/-- Witness for C4 at a 10in×5in page (in EMUs) and the default budget. -/
theorem calc_dpi_via_ooxml_spec_witness :
    calc_dpi_via_ooxml 9144000 4572000 1600 900 =
      Except.ok (specResolveDPI (((9144000 : ℤ) : ℚ) / 914400)
        (((4572000 : ℤ) : ℚ) / 914400) 1600 900) :=
  (calc_dpi_via_ooxml_spec 9144000 4572000 1600 900 (by norm_num) (by norm_num)).1

/-- C5: when the native metadata and the PDF-reported metadata agree on
the physical page size, the two DPI resolution paths return the same
result. -/
theorem dpi_paths_agree (cx cy wpts hpts mw mh : ℤ)
    (hcx : 0 < cx) (hcy : 0 < cy) (hw : 0 < wpts) (hh : 0 < hpts)
    (hagw : (cx : ℚ) / 914400 = (wpts : ℚ) / 72)
    (hagh : (cy : ℚ) / 914400 = (hpts : ℚ) / 72) :
    calc_dpi_via_ooxml cx cy mw mh = calc_dpi_via_pdf wpts hpts mw mh := by
  have hwq : (0 : ℚ) < (wpts : ℚ) / 72 := by positivity
  have hhq : (0 : ℚ) < (hpts : ℚ) / 72 := by positivity
  unfold calc_dpi_via_ooxml calc_dpi_via_pdf
  rw [if_neg (by omega : ¬(cx ≤ 0 ∨ cy ≤ 0)),
    if_neg (by push_neg; exact ⟨hwq, hhq⟩ : ¬((wpts : ℚ) / 72 ≤ 0 ∨ (hpts : ℚ) / 72 ≤ 0))]
  rw [show ((EMU_PER_INCH : ℤ) : ℚ) = 914400 from by norm_num [EMU_PER_INCH]]
  rw [hagw, hagh]

/-- Witness for C5: a 10in×5in page seen as 9144000×4572000 EMUs and as
720×360 pts. -/
theorem dpi_paths_agree_witness :
    calc_dpi_via_ooxml 9144000 4572000 1600 900 = calc_dpi_via_pdf 720 360 1600 900 :=
  dpi_paths_agree 9144000 4572000 720 360 1600 900 (by norm_num) (by norm_num)
    (by norm_num) (by norm_num) (by norm_num) (by norm_num)

/-- C9 (amended): an accepted deck yields a strictly positive DPI
provided the pixel budget exceeds half a pixel per inch on both axes,
i.e. `min(budgetW/widthIn, budgetH/heightIn) > 1/2`; without that
proviso the rounded result can be `0`. -/
theorem resolved_dpi_positive (cx cy wpts hpts mw mh : ℤ)
    (hcx : 0 < cx) (hcy : 0 < cy) (hw : 0 < wpts) (hh : 0 < hpts)
    (h1 : 1/2 < min ((mw : ℚ) / ((cx : ℚ) / 914400)) ((mh : ℚ) / ((cy : ℚ) / 914400)))
    (h2 : 1/2 < min ((mw : ℚ) / ((wpts : ℚ) / 72)) ((mh : ℚ) / ((hpts : ℚ) / 72))) :
    (∃ d, calc_dpi_via_ooxml cx cy mw mh = Except.ok d ∧ 0 < d) ∧
    (∃ d, calc_dpi_via_pdf wpts hpts mw mh = Except.ok d ∧ 0 < d) := by
  constructor
  · unfold calc_dpi_via_ooxml
    rw [if_neg (by omega : ¬(cx ≤ 0 ∨ cy ≤ 0))]
    refine ⟨_, rfl, ?_⟩
    have h1' : 1/2 < min ((mw : ℚ) / ((cx : ℚ) / ((EMU_PER_INCH : ℤ) : ℚ)))
        ((mh : ℚ) / ((cy : ℚ) / ((EMU_PER_INCH : ℤ) : ℚ))) := by
      rw [show ((EMU_PER_INCH : ℤ) : ℚ) = 914400 from by norm_num [EMU_PER_INCH]]
      exact h1
    have := one_le_pyRound _ h1'
    omega
  · have hwq : (0 : ℚ) < (wpts : ℚ) / 72 := by positivity
    have hhq : (0 : ℚ) < (hpts : ℚ) / 72 := by positivity
    unfold calc_dpi_via_pdf
    rw [if_neg (by push_neg; exact ⟨hwq, hhq⟩ : ¬((wpts : ℚ) / 72 ≤ 0 ∨ (hpts : ℚ) / 72 ≤ 0))]
    refine ⟨_, rfl, ?_⟩
    have := one_le_pyRound _ h2
    omega

/-- Witness for C9 at a 10in×5in page and the default 1600×900 budget. -/
theorem resolved_dpi_positive_witness :
    (∃ d, calc_dpi_via_ooxml 9144000 4572000 1600 900 = Except.ok d ∧ 0 < d) ∧
    (∃ d, calc_dpi_via_pdf 720 360 1600 900 = Except.ok d ∧ 0 < d) :=
  resolved_dpi_positive 9144000 4572000 720 360 1600 900 (by norm_num) (by norm_num)
    (by norm_num) (by norm_num) (by norm_num [min_def]) (by norm_num [min_def])

/-- Counterexample to C9 as stated: with page size 10in×5in (accepted:
both dimensions positive) and pixel budget 1×900, the resolver returns
DPI `0`, which is not strictly positive. -/
theorem resolved_dpi_positive_cex :
    ¬ (∀ d : ℤ, calc_dpi_via_ooxml 9144000 4572000 1 900 = Except.ok d → 0 < d) := by
  intro hall
  have h0 : calc_dpi_via_ooxml 9144000 4572000 1 900 = Except.ok 0 := by
    norm_num [calc_dpi_via_ooxml, EMU_PER_INCH, pyRound, min_def]
  exact absurd (hall 0 h0) (by norm_num)

/-! ## Rasterisation (`render_slides.py`)

File names are modelled by their character sequences, and the string
primitives Python applies to them (`split("-")`, `int(...)`, f-string
rendering of a number) are embedded as structurally recursive functions
so that they evaluate on concrete inputs. -/

/-- A file name stem, as its character sequence. -/
abbrev Stem := List Char

/-- Python's `str.split("-")`. -/
def splitOnDash : List Char → List (List Char)
  | [] => [[]]
  | c :: rest =>
    match splitOnDash rest with
    | [] => [[c]]
    | g :: gs => if c = '-' then [] :: g :: gs else (c :: g) :: gs

/-- Digit-sequence accumulator for `int(...)`. -/
def parseDigitsAux : List Char → ℕ → Option ℕ
  | [], acc => some acc
  | c :: rest, acc =>
    if c.isDigit then parseDigitsAux rest (acc * 10 + (c.toNat - 48)) else none

/-- Python's `int(...)` on a digit string: `none` models the `ValueError`
raised on an empty or non-numeric string. -/
def parseNat : List Char → Option ℕ
  | [] => none
  | c :: rest => parseDigitsAux (c :: rest) 0

/-- Decimal rendering of a natural number (the `{slide_num}` f-string
interpolation), with explicit fuel to keep the recursion structural. -/
def natDigitsAux : ℕ → ℕ → List Char → List Char
  | 0, _, acc => acc
  | fuel + 1, n, acc =>
    if n < 10 then Char.ofNat (48 + n) :: acc
    else natDigitsAux fuel (n / 10) (Char.ofNat (48 + n % 10) :: acc)

/-- Decimal rendering of a natural number. -/
def natDigits (n : ℕ) : List Char := natDigitsAux (n + 1) n []

/-- Page-number extraction from a raw output stem
(`render_slides.py`, lines 185-187): split on `-`, take the last
component, parse it as an integer. -/
def slideNumOf (stem : Stem) : Option ℕ :=
  ((splitOnDash stem).getLast?).bind parseNat

/-- The canonical per-page name `slide-{n}.png` (line 188). -/
def canonName (n : ℕ) : Stem :=
  ("slide-".data) ++ natDigits n ++ (".png".data)

/-- The renaming loop of `rasterize` (lines 183-190): pair every raw
output stem with its parsed page number and its canonical path. -/
def collectSlides : List Stem → Option (List (ℕ × Stem))
  | [] => some []
  | s :: rest =>
    match slideNumOf s with
    | none => none
    | some n => (collectSlides rest).map (fun t => (n, canonName n) :: t)

/-- The sort key `lambda t: t[0]` of line 191. -/
def byPageNum (a b : ℕ × Stem) : Prop := a.1 ≤ b.1

instance : DecidableRel byPageNum := fun a b => Nat.decLe a.1 b.1

instance : IsTotal (ℕ × Stem) byPageNum := ⟨fun a b => Nat.le_total a.1 b.1⟩

instance : IsTrans (ℕ × Stem) byPageNum := ⟨fun _ _ _ h1 h2 => le_trans h1 h2⟩

/-- The renaming-sorting-projection tail of `rasterize` (lines 182-193). -/
def rasterizeFrames (stems : List Stem) : Option (List Stem) :=
  (collectSlides stems).map
    (fun slides => (slides.insertionSort byPageNum).map Prod.snd)

lemma collectSlides_snd :
    ∀ (stems : List Stem) (pairs : List (ℕ × Stem)),
      collectSlides stems = some pairs → ∀ p ∈ pairs, p.2 = canonName p.1
  | [], pairs, hcol => by
    simp only [collectSlides, Option.some.injEq] at hcol
    subst hcol
    intro p hp
    exact absurd hp (List.not_mem_nil p)
  | s :: rest, pairs, hcol => by
    unfold collectSlides at hcol
    cases hn : slideNumOf s with
    | none => rw [hn] at hcol; exact absurd hcol (by simp)
    | some n =>
      rw [hn] at hcol
      cases hr : collectSlides rest with
      | none => rw [hr] at hcol; exact absurd hcol (by simp [Option.map])
      | some tail =>
        rw [hr] at hcol
        simp only [Option.map, Option.some.injEq] at hcol
        subst hcol
        intro p hp
        rcases List.mem_cons.mp hp with rfl | hp
        · rfl
        · exact collectSlides_snd rest tail hr p hp

/-- Shared core of C6 and C7: when the backend output stems carry
exactly the page numbers `1..N` (in any order), the rename-sort-project
tail returns the canonical paths in strictly ascending page order. -/
lemma rasterizeFrames_eq (stems : List Stem) (pairs : List (ℕ × Stem)) (N : ℕ)
    (hcol : collectSlides stems = some pairs)
    (hperm : List.Perm (pairs.map Prod.fst) (List.range' 1 N)) :
    rasterizeFrames stems = some ((List.range' 1 N).map canonName) := by
  unfold rasterizeFrames
  rw [hcol]
  simp only [Option.map, Option.some.injEq]
  have hsorted : List.Sorted byPageNum (pairs.insertionSort byPageNum) :=
    List.sorted_insertionSort byPageNum pairs
  have hpermS : List.Perm (pairs.insertionSort byPageNum) pairs :=
    List.perm_insertionSort byPageNum pairs
  have hfstperm : List.Perm ((pairs.insertionSort byPageNum).map Prod.fst)
      (List.range' 1 N) := (hpermS.map Prod.fst).trans hperm
  have hfstsorted : List.Sorted (· ≤ ·) ((pairs.insertionSort byPageNum).map Prod.fst) :=
    List.Pairwise.map Prod.fst (fun _ _ hab => hab) hsorted
  have hrange : List.Sorted (· ≤ ·) (List.range' 1 N) :=
    (List.pairwise_lt_range' 1 N).imp le_of_lt
  have hfst_eq : (pairs.insertionSort byPageNum).map Prod.fst = List.range' 1 N :=
    List.eq_of_perm_of_sorted hfstperm hfstsorted hrange
  have hsnd : ∀ p ∈ pairs.insertionSort byPageNum, p.2 = canonName p.1 :=
    fun p hp => collectSlides_snd stems pairs hcol p (hpermS.subset hp)
  calc (pairs.insertionSort byPageNum).map Prod.snd
      = (pairs.insertionSort byPageNum).map (fun p => canonName p.1) :=
        List.map_congr_left hsnd
    _ = ((pairs.insertionSort byPageNum).map Prod.fst).map canonName := by
        rw [List.map_map]
        rfl
    _ = (List.range' 1 N).map canonName := by rw [hfst_eq]

/-- C6: when the backend produces one output file per page with the page
number embedded as the suffix of the file name (possibly out of lexical
order), the rename-sort tail of `rasterize` returns the N canonical
paths keyed only by page number, sorted ascending by 1-based page number
with no duplicates and no gaps, so indexing frame k yields slide k. -/
theorem rasterize_frames_ordered (stems : List Stem) (pairs : List (ℕ × Stem)) (N : ℕ)
    (hcol : collectSlides stems = some pairs)
    (hperm : List.Perm (pairs.map Prod.fst) (List.range' 1 N)) :
    rasterizeFrames stems = some ((List.range' 1 N).map canonName) ∧
    ((List.range' 1 N).map canonName).length = N ∧
    (∀ k, k < N → ((List.range' 1 N).map canonName).getD k [] = canonName (1 + k)) := by
  refine ⟨rasterizeFrames_eq stems pairs N hcol hperm, by simp, ?_⟩
  intro k hk
  have hlen : k < ((List.range' 1 N).map canonName).length := by simp [hk]
  rw [List.getD_eq_getElem _ _ hlen]
  simp

/-- Witness for C6: three backend outputs named out of lexical order. -/
theorem rasterize_frames_ordered_witness :
    rasterizeFrames ["slide0001-02".data, "slide0001-03".data, "slide0002-01".data] =
      some ((List.range' 1 3).map canonName) :=
  (rasterize_frames_ordered
    ["slide0001-02".data, "slide0001-03".data, "slide0002-01".data]
    [(2, canonName 2), (3, canonName 3), (1, canonName 1)] 3
    (by decide) (by decide)).1

/-- The backend invocations `convert_to_pdf` can issue (lines 85-136). -/
inductive Cmd
  | directPdf
  | toOdp
  | odpToPdf
deriving DecidableEq

/-- Abstract behaviour of the external conversion backend: whether each
conversion stage produces its output file, and the stems of the raster
files produced from the PDF by `convert_from_path`. -/
structure Backend where
  directOk : Bool
  odpOk : Bool
  odpPdfOk : Bool
  pageStems : List Stem

/-- The function `convert_to_pdf` (lines 78-140): `some ()` stands for the produced
PDF path, `none` for the empty-string failure return; the second
component is the trace of backend commands invoked, in order. -/
def convert_to_pdf (b : Backend) : Option Unit × List Cmd :=
  if b.directOk then (some (), [Cmd.directPdf])
  else if b.odpOk then
    (if b.odpPdfOk then some () else none, [Cmd.directPdf, Cmd.toOdp, Cmd.odpToPdf])
  else (none, [Cmd.directPdf, Cmd.toOdp])

/-- The `RasterizationFailed` error message (lines 164-167). -/
def rasterizationFailedMsg : String :=
  "Failed to produce PDF for rasterization (direct and ODP fallback)."

/-- The function `rasterize` (lines 143-193) over the abstract backend: produce the
PDF (directly, else through the ODP fallback), fail fatally when neither
path produced it, otherwise rasterise and canonically rename and sort
the frames. -/
def rasterize (b : Backend) : Except String (List Stem) × List Cmd :=
  ((convert_to_pdf b).1.elim (Except.error rasterizationFailedMsg)
    (fun _ =>
      match rasterizeFrames b.pageStems with
      | none => Except.error "invalid page number in backend output"
      | some frames => Except.ok frames),
   (convert_to_pdf b).2)

/-- C7: `rasterize` always attempts direct conversion first; it attempts
the two-hop ODP path exactly when the direct attempt fails; when both
stages fail it returns the `RasterizationFailed` error and no frames;
and when the fallback succeeds it still returns the complete, correctly
ordered frame sequence. -/
theorem rasterize_fallback (b : Backend) :
    ((rasterize b).2.head? = some Cmd.directPdf) ∧
    (Cmd.toOdp ∈ (rasterize b).2 ↔ b.directOk = false) ∧
    (b.directOk = false → (b.odpOk = false ∨ b.odpPdfOk = false) →
      (rasterize b).1 = Except.error rasterizationFailedMsg) ∧
    (∀ (pairs : List (ℕ × Stem)) (N : ℕ),
      b.directOk = false → b.odpOk = true → b.odpPdfOk = true →
      collectSlides b.pageStems = some pairs →
      List.Perm (pairs.map Prod.fst) (List.range' 1 N) →
      (rasterize b).1 = Except.ok ((List.range' 1 N).map canonName)) := by
  obtain ⟨d, o, p, stems⟩ := b
  cases d
  · cases o
    · refine ⟨rfl, by simp [rasterize, convert_to_pdf], fun _ _ => rfl, ?_⟩
      intro pairs N _ ho _ _ _
      exact absurd ho (by simp)
    · cases p
      · refine ⟨rfl, by simp [rasterize, convert_to_pdf], fun _ _ => rfl, ?_⟩
        intro pairs N _ _ hp _ _
        exact absurd hp (by simp)
      · refine ⟨rfl, by simp [rasterize, convert_to_pdf], ?_, ?_⟩
        · intro _ hcontra
          rcases hcontra with hcontra | hcontra <;> exact absurd hcontra (by simp)
        · intro pairs N _ _ _ hcol hperm
          show (match rasterizeFrames stems with
            | none => Except.error "invalid page number in backend output"
            | some frames => Except.ok frames) = _
          rw [rasterizeFrames_eq stems pairs N hcol hperm]
  · refine ⟨rfl, by simp [rasterize, convert_to_pdf], ?_, ?_⟩
    · intro hcontra _
      exact absurd hcontra (by simp)
    · intro pairs N hcontra _ _ _ _
      exact absurd hcontra (by simp)

/-- Witness for C7: direct conversion fails, the ODP fallback succeeds,
and the frames still come back complete and ordered. -/
theorem rasterize_fallback_witness :
    (rasterize ⟨false, true, true,
      ["slide0001-02".data, "slide0001-03".data, "slide0002-01".data]⟩).1 =
      Except.ok ((List.range' 1 3).map canonName) :=
  (rasterize_fallback ⟨false, true, true,
      ["slide0001-02".data, "slide0001-03".data, "slide0002-01".data]⟩).2.2.2
    [(2, canonName 2), (3, canonName 3), (1, canonName 1)] 3
    rfl rfl rfl (by decide) (by decide)

/-! ## Deck padding (`slides_test.py`, `enlarge_deck`) -/

/-- A slide shape: position, size and an optional solid fill colour. -/
structure Shape where
  left : ℤ
  top : ℤ
  width : ℤ
  height : ℤ
  fill : Option Pixel
deriving DecidableEq

instance : Inhabited Shape := ⟨⟨0, 0, 0, 0, none⟩⟩

/-- A presentation deck: page size in EMUs and the shapes of each slide,
listed back-to-front. -/
structure Deck where
  slide_width : ℤ
  slide_height : ℤ
  slides : List (List Shape)
deriving DecidableEq

/-- The four padding rectangles of `enlarge_deck` (lines 53-58), for the
enlarged page size `w1 × h1`: left, right, top, bottom bands, each with
the solid `PAD_RGB` fill of lines 66-67. -/
def padShapes (pad_emu w1 h1 : ℤ) : List Shape :=
  [⟨0, 0, pad_emu, h1, some PAD_RGB⟩,
   ⟨w1 - pad_emu, 0, pad_emu, h1, some PAD_RGB⟩,
   ⟨0, 0, w1, pad_emu, some PAD_RGB⟩,
   ⟨0, h1 - pad_emu, w1, pad_emu, some PAD_RGB⟩]

/-- The function `enlarge_deck` (lines 37-75): enlarge the page by `2 * pad_emu` on
each axis, shift every existing shape by `pad_emu` on both axes, and
insert the four padding bands behind all content (the code inserts each
at index 2 of the shape tree, so they end up in reverse insertion order
at the back of the stack).  Returns the new deck together with the new
page size, the function's return value. -/
def enlarge_deck (d : Deck) (pad_emu : ℤ) : Deck × ℤ × ℤ :=
  (⟨d.slide_width + 2 * pad_emu, d.slide_height + 2 * pad_emu,
    d.slides.map (fun shapes =>
      (padShapes pad_emu (d.slide_width + 2 * pad_emu)
         (d.slide_height + 2 * pad_emu)).reverse ++
        shapes.map (fun s => { s with left := s.left + pad_emu, top := s.top + pad_emu }))⟩,
   d.slide_width + 2 * pad_emu, d.slide_height + 2 * pad_emu)

/-- The ratio `pad_ratio_w = pad_emu / w1` (`slides_test.py`, lines 175-176). -/
def pad_ratio (pad_emu w1 : ℤ) : ℚ := (pad_emu : ℚ) / (w1 : ℚ)

/-- C8: padding a deck with positive page size by a positive thickness
enlarges each axis by exactly `2 * pad`, and the resulting
padding-to-canvas ratios are strictly below `1/2`. -/
theorem enlarge_deck_spec (d : Deck) (pad : ℤ)
    (hw : 0 < d.slide_width) (hh : 0 < d.slide_height) (hp : 0 < pad) :
    (enlarge_deck d pad).2.1 = d.slide_width + 2 * pad ∧
    (enlarge_deck d pad).2.2 = d.slide_height + 2 * pad ∧
    pad_ratio pad (enlarge_deck d pad).2.1 < 1/2 ∧
    pad_ratio pad (enlarge_deck d pad).2.2 < 1/2 := by
  have hwq : (0 : ℚ) < ((d.slide_width : ℚ) + 2 * (pad : ℚ)) := by
    have h1 : (0 : ℚ) < (d.slide_width : ℚ) := by exact_mod_cast hw
    have h2 : (0 : ℚ) < (pad : ℚ) := by exact_mod_cast hp
    linarith
  have hhq : (0 : ℚ) < ((d.slide_height : ℚ) + 2 * (pad : ℚ)) := by
    have h1 : (0 : ℚ) < (d.slide_height : ℚ) := by exact_mod_cast hh
    have h2 : (0 : ℚ) < (pad : ℚ) := by exact_mod_cast hp
    linarith
  refine ⟨rfl, rfl, ?_, ?_⟩
  · show pad_ratio pad (d.slide_width + 2 * pad) < 1/2
    unfold pad_ratio
    rw [div_lt_iff₀ (by push_cast; linarith)]
    push_cast
    have h2 : (0 : ℚ) < (d.slide_width : ℚ) := by exact_mod_cast hw
    linarith
  · show pad_ratio pad (d.slide_height + 2 * pad) < 1/2
    unfold pad_ratio
    rw [div_lt_iff₀ (by push_cast; linarith)]
    push_cast
    have h2 : (0 : ℚ) < (d.slide_height : ℚ) := by exact_mod_cast hh
    linarith

/-- A concrete 10in×7.5in single-slide test deck. -/
def deckA : Deck := ⟨9144000, 6858000, [[]]⟩

/-- Witness for C8: the padded width ratio at thickness 914400 EMU. -/
theorem enlarge_deck_spec_witness :
    (enlarge_deck deckA 914400).2.1 = deckA.slide_width + 2 * 914400 ∧
    pad_ratio 914400 (enlarge_deck deckA 914400).2.1 < 1/2 := by
  have h := enlarge_deck_spec deckA 914400 (by decide) (by decide) (by decide)
  exact ⟨h.1, h.2.2.1⟩

/-- C10: the fill colour injected behind every slide by the deck padder
and the reference colour the margin inspector compares against are the
same fixed constant, `(200, 200, 200)`. -/
theorem pad_colour_consistent :
    pad_colour = PAD_RGB ∧ PAD_RGB = (200, 200, 200) ∧
    (∀ (d : Deck) (pad : ℤ), ∀ slide ∈ (enlarge_deck d pad).1.slides,
      ∀ s ∈ slide.take 4, s.fill = some pad_colour) := by
  refine ⟨rfl, rfl, ?_⟩
  intro d pad slide hslide s hs
  simp only [enlarge_deck] at hslide
  rw [List.mem_map] at hslide
  obtain ⟨orig, _, rfl⟩ := hslide
  rw [show (4 : ℕ) =
      (padShapes pad (d.slide_width + 2 * pad) (d.slide_height + 2 * pad)).reverse.length
    from by simp [padShapes]] at hs
  rw [List.take_left] at hs
  rw [List.mem_reverse] at hs
  simp only [padShapes, List.mem_cons, List.not_mem_nil, or_false] at hs
  rcases hs with rfl | rfl | rfl | rfl <;> rfl

/-- Witness for C10: the backmost shape of the padded test deck carries
the inspector's reference colour. -/
theorem pad_colour_consistent_witness :
    (((enlarge_deck deckA 5).1.slides.getD 0 []).getD 0 default).fill = some pad_colour :=
  pad_colour_consistent.2.2 deckA 5 ((enlarge_deck deckA 5).1.slides.getD 0 [])
    (by decide) (((enlarge_deck deckA 5).1.slides.getD 0 []).getD 0 default) (by decide)

end Slides
